import Mathlib

/-!
# Verification of the `GuildDB` guild-configuration store (`src/data.py`)

This file gives a shallow embedding of the `GuildDB` persistence layer:
JSON documents, the canonical default document `_default_guild`, the
merge-on-load backfill, and the `load` / `save` / `get` / `set` /
`delete_guild` operations, together with a lock-event trace model of the
per-guild `asyncio.Lock` discipline and a model (from the specification)
of the remote-table backend.

JSON values are modelled by the inductive `J`; a guild document (Python
`dict` at top level) is a `Doc := List (String × J)` keeping insertion
order, matching CPython dict semantics (assignment of a fresh key appends;
assignment of a present key keeps its position).  The backing medium is a
function from guild id to a `FileRec` which is `absent` (no file),
`bad` (file exists but `open`/`json.load` raises), or `ok d` (file holds
document `d`).
-/

namespace GuildStore

/-- JSON values, as produced by `json.load` / consumed by `json.dump`. -/
inductive J : Type where
  | null : J
  | bool (b : Bool) : J
  | num (n : Int) : J
  | str (s : String) : J
  | arr (xs : List J) : J
  | obj (fields : List (String × J)) : J

/-- A top-level guild document: a Python `dict` in insertion order. -/
abbrev Doc := List (String × J)

/-- `k in d` on a Python dict. -/
def containsKey (d : Doc) (k : String) : Bool :=
  d.any (fun kv => kv.1 == k)

/-- `d[k]`, as an option. -/
def lookupKey (d : Doc) (k : String) : Option J :=
  (d.find? (fun kv => kv.1 == k)).map (fun kv => kv.2)

/-- `d[k] = v` on a Python dict: replace in place if `k` is present
(keeping its position), otherwise append at the end. -/
def setKey (d : Doc) (k : String) (v : J) : Doc :=
  match d with
  | [] => [(k, v)]
  | kv :: rest => if kv.1 == k then (k, v) :: rest else kv :: setKey rest k v

/-- `_default_guild()` from `src/data.py` lines 25–51: the canonical
schema for a fresh guild.  Six top-level keys, in source order. -/
def _default_guild : Doc :=
  [ ("warnings", J.obj []),
    ("welcome", J.obj
      [ ("channel_id", J.null),
        ("message", J.str "Welcome {user} to **{server}**! You are member #{count}."),
        ("embed", J.bool false) ]),
    ("auto_role", J.obj
      [ ("member", J.null),
        ("bot", J.null) ]),
    ("muted_role", J.null),
    ("image_muted", J.obj []),
    ("logs", J.obj
      [ ("mod", J.null),
        ("message", J.null),
        ("member", J.null),
        ("server", J.null),
        ("voice", J.null) ]) ]

/-- The merge-on-load loop of `GuildDB.load` (`src/data.py` lines 95–98):
`for key, default_val in defaults.items(): if key not in stored:
stored[key] = default_val`.  Assigning a fresh key appends at the end. -/
def backfill (stored : Doc) : Doc :=
  _default_guild.foldl
    (fun acc kv => if containsKey acc kv.1 then acc else acc ++ [kv])
    stored

/-- Guild identifiers (opaque non-negative integers). -/
abbrev Gid := Nat

/-- State of the backing file for one guild: no file, an unreadable or
unparsable file (`open` / `json.load` raises), or a stored document. -/
inductive FileRec : Type where
  | absent : FileRec
  | bad : FileRec
  | ok (d : Doc) : FileRec

/-- The file-per-guild backing medium: `data/guilds/{guild_id}.json`. -/
abbrev Store := Gid → FileRec

/-- Python exceptions that `GuildDB` operations can raise. -/
inductive PyErr : Type where
  | osError : PyErr      -- `open` fails (medium unreachable / unwritable)
  | jsonError : PyErr    -- `json.load` fails (corrupt record)
  | indexError : PyErr   -- `keys[-1]` on an empty key path
  | typeError : PyErr    -- item assignment / lookup on a non-dict
deriving DecidableEq

/-- Pointwise update of the backing medium. -/
def updateStore (fs : Store) (g : Gid) (r : FileRec) : Store :=
  fun g' => if g' = g then r else fs g'

namespace GuildDB

/-- `GuildDB.load` (`src/data.py` lines 83–100): read the stored record
(`{}` when the file is absent), backfill missing default keys, return it.
A file that exists but cannot be read or parsed raises. -/
def load (fs : Store) (g : Gid) : Except PyErr Doc :=
  match fs g with
  | FileRec.absent => Except.ok (backfill [])
  | FileRec.bad => Except.error PyErr.jsonError
  | FileRec.ok d => Except.ok (backfill d)

/-- `GuildDB.save` (`src/data.py` lines 102–106) on a writable medium:
overwrite the guild's file with the full document. -/
def save (fs : Store) (g : Gid) (d : Doc) : Store :=
  updateStore fs g (FileRec.ok d)

/-- `GuildDB.save` with the medium's writability made explicit: `open(path,
"w")` raises `OSError` when the medium rejects the write; nothing in the
source catches it. -/
def saveOnDisk (writable : Bool) (fs : Store) (g : Gid) (d : Doc) :
    Except PyErr Store :=
  if writable then Except.ok (save fs g d) else Except.error PyErr.osError

/-- `GuildDB.delete_guild` (`src/data.py` lines 135–140): remove the file
if it exists, otherwise do nothing. -/
def delete_guild (fs : Store) (g : Gid) : Store :=
  match fs g with
  | FileRec.absent => fs
  | _ => updateStore fs g FileRec.absent

/-- The key-path walk of `GuildDB.get` (`src/data.py` lines 116–121):
`for key in keys: if not isinstance(obj, dict) or key not in obj: return
default; obj = obj[key]; return obj`. -/
def getPath (o : J) (keys : List String) (dflt : J) : J :=
  match keys with
  | [] => o
  | k :: rest =>
    match o with
    | J.obj fields =>
      match lookupKey fields k with
      | some v => getPath v rest dflt
      | none => dflt
    | _ => dflt

/-- `GuildDB.get` (`src/data.py` lines 110–121): load, then walk the key
path, returning `dflt` when a segment is absent or met on a non-dict. -/
def get (fs : Store) (g : Gid) (keys : List String) (dflt : J) :
    Except PyErr J :=
  match load fs g with
  | Except.error e => Except.error e
  | Except.ok d => Except.ok (getPath (J.obj d) keys dflt)

/-- The mutation loop of `GuildDB.set` (`src/data.py` lines 129–132):
`obj = data; for key in keys[:-1]: obj = obj.setdefault(key, {});
obj[keys[-1]] = value`, with Python's failures made explicit: an empty
key path raises `IndexError` at `keys[-1]`; when `setdefault` returns an
existing non-dict value, the next subscript/`setdefault` on it raises
`TypeError`. -/
def setDoc (fields : Doc) (keys : List String) (v : J) : Except PyErr Doc :=
  match keys with
  | [] => Except.error PyErr.indexError
  | [k] => Except.ok (setKey fields k v)
  | k :: rest =>
    let child := match lookupKey fields k with
      | some c => c
      | none => J.obj []
    match child with
    | J.obj cf =>
      match setDoc cf rest v with
      | Except.ok cf' => Except.ok (setKey fields k (J.obj cf'))
      | Except.error e => Except.error e
    | _ => Except.error PyErr.typeError

/-- `GuildDB.set` (`src/data.py` lines 123–133): load the document,
mutate it along the key path, save it back.  Errors from the load or the
mutation propagate; nothing in the source catches them. -/
def set (fs : Store) (g : Gid) (keys : List String) (v : J) :
    Except PyErr Store :=
  match load fs g with
  | Except.error e => Except.error e
  | Except.ok d =>
    match setDoc d keys v with
    | Except.ok d' => Except.ok (save fs g d')
    | Except.error e => Except.error e

end GuildDB

/-- Does a key-path walk over `o` succeed, i.e. is every segment met on a
dict that contains it?  (`GuildDB.get` returns the default exactly when
this fails.) -/
def resolves (o : J) (keys : List String) : Bool :=
  match keys with
  | [] => true
  | k :: rest =>
    match o with
    | J.obj fields =>
      match lookupKey fields k with
      | some v => resolves v rest
      | none => false
    | _ => false

/-- Does `d` contain every top-level key of the canonical default shape? -/
def hasAllDefaults (d : Doc) : Bool :=
  _default_guild.all (fun kv => containsKey d kv.1)

/-!
## Lock-event traces

`GuildDB` guards the file of guild `g` with a per-guild `asyncio.Lock`
(`src/data.py` lines 71–76).  Each public operation is modelled by the
sequence of lock and file events it performs, read off the source:
`load` is `async with self._lock(guild_id): ... open/read ...`
(acquire, read, release), and similarly for `save` and `delete_guild`.
`set` (lines 123–133) calls `self.load` and then `self.save`, each of
which acquires and releases the lock on its own; `set` itself takes no
lock.
-/

/-- Lock and file events performed by `GuildDB` operations. -/
inductive LockEv : Type where
  | acq (g : Gid) : LockEv
  | rel (g : Gid) : LockEv
  | readF (g : Gid) : LockEv
  | writeF (g : Gid) : LockEv
  | removeF (g : Gid) : LockEv

/-- Event trace of `GuildDB.load g` (`src/data.py` lines 83–100). -/
def loadEvents (g : Gid) : List LockEv :=
  [LockEv.acq g, LockEv.readF g, LockEv.rel g]

/-- Event trace of `GuildDB.save g` (`src/data.py` lines 102–106). -/
def saveEvents (g : Gid) : List LockEv :=
  [LockEv.acq g, LockEv.writeF g, LockEv.rel g]

/-- Event trace of `GuildDB.set g` (`src/data.py` lines 123–133): the
trace of the internal `load` followed by the trace of the internal
`save`; `set` performs no lock operation of its own. -/
def setEvents (g : Gid) : List LockEv :=
  loadEvents g ++ saveEvents g

/-- Event trace of `GuildDB.delete_guild g` (lines 135–140). -/
def deleteEvents (g : Gid) : List LockEv :=
  [LockEv.acq g, LockEv.removeF g, LockEv.rel g]

/-- Whether the lock of guild `g` is held after the events `tr`. -/
def heldAfter (tr : List LockEv) (g : Gid) : Bool :=
  tr.foldl
    (fun st e =>
      match e with
      | LockEv.acq g' => if g' == g then true else st
      | LockEv.rel g' => if g' == g then false else st
      | _ => st)
    false

/-- The lock of `g` is held for the full duration of the trace: at every
point strictly between the first and the last event, `g`'s lock is
held. -/
def heldThroughout (tr : List LockEv) (g : Gid) : Prop :=
  ∀ i, 0 < i → i < tr.length → heldAfter (tr.take i) g = true

/-!
## The remote-table backend

Modelled from the spec: the remote-table variant of the store is not
among the source files; per the spec it is "a single logical table keyed
by guild identifier with a document-typed column and a last-updated
timestamp; reads select by key equality; writes upsert
(insert-or-merge-on-conflict) the full document", exposed behind the
same `load`/`save`/`get`/`set`/`delete_guild` surface with the same
backfill-on-read behaviour.
-/

/-- Modelled from the spec: one row of the remote guild table — guild id
key, document column, last-updated timestamp. -/
structure Row : Type where
  gid : Gid
  doc : Doc
  updated_at : Nat

/-- Modelled from the spec: the remote guild table. -/
abbrev Table := List Row

/-- Modelled from the spec: read the document column by key equality. -/
def selectByKey (t : Table) (g : Gid) : Option Doc :=
  (t.find? (fun r => r.gid == g)).map (fun r => r.doc)

/-- Modelled from the spec: upsert the full document — replace the row
for `g` when one exists, insert a fresh row otherwise. -/
def upsert (t : Table) (g : Gid) (d : Doc) (ts : Nat) : Table :=
  match t with
  | [] => [{ gid := g, doc := d, updated_at := ts }]
  | r :: rest =>
    if r.gid == g then { gid := g, doc := d, updated_at := ts } :: rest
    else r :: upsert rest g d ts

/-- Modelled from the spec: delete the row for `g`, if any. -/
def deleteByKey (t : Table) (g : Gid) : Table :=
  t.filter (fun r => !(r.gid == g))

namespace RemoteDB

/-- Modelled from the spec: remote-variant `load` — select by key (an
absent row reads as the empty document) and backfill defaults. -/
def load (t : Table) (g : Gid) : Doc :=
  backfill ((selectByKey t g).getD [])

/-- Modelled from the spec: remote-variant `save` — upsert the full
document. -/
def save (t : Table) (g : Gid) (d : Doc) (ts : Nat) : Table :=
  upsert t g d ts

/-- Modelled from the spec: remote-variant `get` — load then walk the
key path with a default, as in the file variant. -/
def get (t : Table) (g : Gid) (keys : List String) (dflt : J) : J :=
  GuildDB.getPath (J.obj (load t g)) keys dflt

/-- Modelled from the spec: remote-variant `set` — load, mutate along
the key path, upsert the whole document back. -/
def set (t : Table) (g : Gid) (keys : List String) (v : J) (ts : Nat) :
    Except PyErr Table :=
  match GuildDB.setDoc (load t g) keys v with
  | Except.ok d' => Except.ok (save t g d' ts)
  | Except.error e => Except.error e

/-- Modelled from the spec: remote-variant `delete_guild` — delete the
row by key. -/
def delete_guild (t : Table) (g : Gid) : Table :=
  deleteByKey t g

end RemoteDB

/-- The file store `fs` and the remote table `t` hold the same records:
every guild's file content matches the guild's row (and no file is
unreadable). -/
def Abs (fs : Store) (t : Table) : Prop :=
  ∀ g,
    fs g =
      (match selectByKey t g with
       | some d => FileRec.ok d
       | none => FileRec.absent)

/-- A stored document with caller-supplied nested structure under the
top-level key `warnings`, used as a concrete frame-condition input. -/
def attackerDoc : Doc :=
  [("warnings", J.obj [("99", J.arr [J.str "spam"])])]

/-- The document produced by `setDoc` on the default document at the key
path `["auto_role", "member"]` with value `555`. -/
def exampleAfterSet : Doc :=
  match GuildDB.setDoc _default_guild ["auto_role", "member"] (J.num 555) with
  | Except.ok d => d
  | Except.error _ => []

/-!
## Basic lemmas about documents and the backfill merge
-/

theorem containsKey_append (d e : Doc) (k : String) :
    containsKey (d ++ e) k = (containsKey d k || containsKey e k) := by
  simp [containsKey, List.any_append]

theorem containsKey_of_mem {d : Doc} {kv : String × J} (h : kv ∈ d) :
    containsKey d kv.1 = true := by
  simp only [containsKey, List.any_eq_true]
  exact ⟨kv, h, by simp⟩

theorem lookupKey_append_left {d : Doc} (e : Doc) {k : String}
    (h : containsKey d k = true) :
    lookupKey (d ++ e) k = lookupKey d k := by
  simp only [containsKey, List.any_eq_true] at h
  obtain ⟨kv, hmem, hk⟩ := h
  have hsome : (d.find? (fun kv => kv.1 == k)).isSome := by
    rw [List.find?_isSome]
    exact ⟨kv, hmem, hk⟩
  obtain ⟨r, hr⟩ := Option.isSome_iff_exists.mp hsome
  simp [lookupKey, List.find?_append, hr]

theorem lookupKey_setKey_self (d : Doc) (k : String) (v : J) :
    lookupKey (setKey d k v) k = some v := by
  induction d with
  | nil => simp [setKey, lookupKey]
  | cons kv rest ih =>
    by_cases h : kv.1 == k
    · simp [setKey, h, lookupKey]
    · simp only [setKey, h, if_false, Bool.false_eq_true]
      simpa [lookupKey, List.find?_cons, h] using ih

theorem containsKey_cons (kv : String × J) (d : Doc) (k : String) :
    containsKey (kv :: d) k = ((kv.1 == k) || containsKey d k) := by
  simp [containsKey]

theorem containsKey_setKey (d : Doc) (k k' : String) (v : J) :
    containsKey (setKey d k v) k' = (containsKey d k' || (k == k')) := by
  induction d with
  | nil => simp [setKey, containsKey]
  | cons kv rest ih =>
    by_cases h : kv.1 == k
    · have hk : kv.1 = k := by simpa using h
      simp only [setKey, h, if_true]
      cases hkk : (k == k') <;>
        simp [containsKey_cons, hkk, hk]
    · simp only [setKey, h, if_false, Bool.false_eq_true]
      simp [containsKey_cons, ih, Bool.or_assoc]

/-- The merge-on-load fold is append-of-missing-defaults, provided the
default keys are pairwise distinct. -/
theorem foldl_backfill_eq (ds : List (String × J)) (s : Doc)
    (h : (ds.map Prod.fst).Nodup) :
    ds.foldl (fun acc kv => if containsKey acc kv.1 then acc else acc ++ [kv]) s
      = s ++ ds.filter (fun kv => !containsKey s kv.1) := by
  induction ds generalizing s with
  | nil => simp
  | cons kv ds ih =>
    simp only [List.map_cons, List.nodup_cons] at h
    obtain ⟨hk, hnd⟩ := h
    simp only [List.foldl_cons]
    by_cases hc : containsKey s kv.1
    · rw [if_pos hc, ih s hnd]
      simp [List.filter_cons, hc]
    · rw [if_neg hc, ih (s ++ [kv]) hnd]
      have hfeq : ds.filter (fun kv' => !containsKey (s ++ [kv]) kv'.1)
          = ds.filter (fun kv' => !containsKey s kv'.1) := by
        apply List.filter_congr
        intro kv' hmem
        have hne : ¬(kv.1 = kv'.1) := by
          intro he
          exact hk (he ▸ List.mem_map_of_mem Prod.fst hmem)
        have : containsKey [kv] kv'.1 = false := by
          simp [containsKey, hne]
        simp [containsKey_append, this]
      rw [hfeq]
      simp [List.filter_cons, hc, List.append_assoc]

theorem backfill_eq (s : Doc) :
    backfill s = s ++ _default_guild.filter (fun kv => !containsKey s kv.1) :=
  foldl_backfill_eq _default_guild s (by decide)

theorem hasAllDefaults_backfill (s : Doc) : hasAllDefaults (backfill s) = true := by
  rw [hasAllDefaults, List.all_eq_true]
  intro kv hmem
  rw [backfill_eq, containsKey_append]
  by_cases hc : containsKey s kv.1
  · simp [hc]
  · have hmf : kv ∈ _default_guild.filter (fun kv' => !containsKey s kv'.1) := by
      rw [List.mem_filter]
      exact ⟨hmem, by simp [hc]⟩
    simp [containsKey_of_mem hmf]

theorem backfill_of_hasAllDefaults {d : Doc} (h : hasAllDefaults d = true) :
    backfill d = d := by
  rw [backfill_eq]
  have hnil : _default_guild.filter (fun kv => !containsKey d kv.1) = [] := by
    rw [List.filter_eq_nil_iff]
    intro kv hmem
    rw [hasAllDefaults, List.all_eq_true] at h
    simp [h kv hmem]
  simp [hnil]

theorem load_hasAllDefaults {fs : Store} {g : Gid} {d : Doc}
    (h : GuildDB.load fs g = Except.ok d) : hasAllDefaults d = true := by
  unfold GuildDB.load at h
  cases hfs : fs g <;> rw [hfs] at h
  · exact (Except.ok.injEq _ _).mp h ▸ hasAllDefaults_backfill []
  · exact absurd h (by simp)
  · exact (Except.ok.injEq _ _).mp h ▸ hasAllDefaults_backfill _

theorem load_save (fs : Store) (g : Gid) (d : Doc) :
    GuildDB.load (GuildDB.save fs g d) g = Except.ok (backfill d) := by
  simp [GuildDB.load, GuildDB.save, updateStore]

/-!
## Lemmas about the key-path walk and the nested-set mutation
-/

/-- A failed walk makes `getPath` return the default. -/
theorem getPath_default_of_not_resolves {dflt : J} :
    ∀ (ks : List String) (o : J), resolves o ks = false →
      GuildDB.getPath o ks dflt = dflt := by
  intro ks
  induction ks with
  | nil => intro o h; simp [resolves] at h
  | cons k rest ih =>
    intro o h
    cases o with
    | obj fields =>
      simp only [resolves] at h
      simp only [GuildDB.getPath]
      cases hl : lookupKey fields k with
      | none => rfl
      | some v =>
        rw [hl] at h
        exact ih v h
    | null => rfl
    | bool b => rfl
    | num n => rfl
    | str s => rfl
    | arr xs => rfl

/-- After a successful `setDoc` along `ks`, walking `ks` reads back the
written value. -/
theorem setDoc_getPath {v dflt : J} :
    ∀ (ks : List String) (fields d' : Doc),
      GuildDB.setDoc fields ks v = Except.ok d' →
      GuildDB.getPath (J.obj d') ks dflt = v := by
  intro ks
  induction ks with
  | nil => intro fields d' h; simp [GuildDB.setDoc] at h
  | cons k rest ih =>
    intro fields d' h
    cases rest with
    | nil =>
      simp only [GuildDB.setDoc, Except.ok.injEq] at h
      subst h
      simp [GuildDB.getPath, lookupKey_setKey_self]
    | cons k2 rest2 =>
      simp only [GuildDB.setDoc] at h
      split at h
      · next cf heq =>
        cases hrec : GuildDB.setDoc cf (k2 :: rest2) v with
        | ok cf' =>
          rw [hrec] at h
          simp only [Except.ok.injEq] at h
          subst h
          simp only [GuildDB.getPath, lookupKey_setKey_self]
          exact ih cf cf' hrec
        | error e => rw [hrec] at h; exact absurd h (by simp)
      · next hne => exact absurd h (by simp)

/-- `setDoc` never removes a top-level key. -/
theorem containsKey_setDoc {v : J} {ks : List String} {fields d' : Doc}
    {k' : String} (h : GuildDB.setDoc fields ks v = Except.ok d')
    (hc : containsKey fields k' = true) : containsKey d' k' = true := by
  cases ks with
  | nil => simp [GuildDB.setDoc] at h
  | cons k rest =>
    cases rest with
    | nil =>
      simp only [GuildDB.setDoc, Except.ok.injEq] at h
      subst h
      simp [containsKey_setKey, hc]
    | cons k2 rest2 =>
      simp only [GuildDB.setDoc] at h
      split at h
      · next cf heq =>
        cases hrec : GuildDB.setDoc cf (k2 :: rest2) v with
        | ok cf' =>
          rw [hrec] at h
          simp only [Except.ok.injEq] at h
          subst h
          simp [containsKey_setKey, hc]
        | error e => rw [hrec] at h; exact absurd h (by simp)
      · next hne => exact absurd h (by simp)

/-- `setDoc` preserves presence of all default top-level keys. -/
theorem hasAllDefaults_setDoc {v : J} {ks : List String} {fields d' : Doc}
    (h : GuildDB.setDoc fields ks v = Except.ok d')
    (hall : hasAllDefaults fields = true) : hasAllDefaults d' = true := by
  rw [hasAllDefaults, List.all_eq_true]
  intro kv hmem
  rw [hasAllDefaults, List.all_eq_true] at hall
  exact containsKey_setDoc h (hall kv hmem)

/-!
## Lemmas about the remote table
-/

theorem selectByKey_upsert_self (t : Table) (g : Gid) (d : Doc) (ts : Nat) :
    selectByKey (upsert t g d ts) g = some d := by
  induction t with
  | nil => simp [upsert, selectByKey]
  | cons r rest ih =>
    by_cases h : r.gid == g
    · simp [upsert, h, selectByKey]
    · simp only [upsert, h, if_false, Bool.false_eq_true]
      simpa [selectByKey, List.find?_cons, h] using ih

theorem selectByKey_upsert_other (t : Table) {g g' : Gid} (d : Doc) (ts : Nat)
    (h : ¬g' = g) :
    selectByKey (upsert t g d ts) g' = selectByKey t g' := by
  induction t with
  | nil => simp [upsert, selectByKey, List.find?_cons, Ne.symm h]
  | cons r rest ih =>
    by_cases hr : r.gid == g
    · have hrg : r.gid = g := by simpa using hr
      simp [upsert, hr, selectByKey, List.find?_cons, Ne.symm h, hrg]
    · simp only [upsert, hr, if_false, Bool.false_eq_true]
      by_cases hr' : r.gid == g'
      · simp [selectByKey, List.find?_cons, hr']
      · simpa [selectByKey, List.find?_cons, hr'] using ih

theorem selectByKey_deleteByKey_self (t : Table) (g : Gid) :
    selectByKey (deleteByKey t g) g = none := by
  induction t with
  | nil => simp [deleteByKey, selectByKey]
  | cons r rest ih =>
    by_cases h : r.gid == g
    · simpa [deleteByKey, List.filter_cons, h] using ih
    · simp only [deleteByKey, List.filter_cons, h] at ih ⊢
      simp [selectByKey, List.find?_cons, h, ih]

theorem selectByKey_deleteByKey_other (t : Table) {g g' : Gid} (h : ¬g' = g) :
    selectByKey (deleteByKey t g) g' = selectByKey t g' := by
  induction t with
  | nil => simp [deleteByKey, selectByKey]
  | cons r rest ih =>
    simp only [deleteByKey] at ih ⊢
    by_cases hr : r.gid == g
    · have hrg : r.gid = g := by simpa using hr
      rw [List.filter_cons_of_neg (by simp [hr])]
      rw [ih]
      simp [selectByKey, List.find?_cons, hrg, Ne.symm h]
    · rw [List.filter_cons_of_pos (by simp [hr])]
      by_cases hr' : r.gid == g'
      · simp [selectByKey, List.find?_cons, hr']
      · simpa [selectByKey, List.find?_cons, hr'] using ih

/-- Related stores load the same document. -/
theorem load_of_related {fs : Store} {t : Table} (h : Abs fs t) (g : Gid) :
    GuildDB.load fs g = Except.ok (RemoteDB.load t g) := by
  have hg := h g
  unfold GuildDB.load RemoteDB.load
  cases hsel : selectByKey t g <;> rw [hsel] at hg <;> rw [hg] <;> rfl

/-- A full-document write keeps the two backends related. -/
theorem abs_save {fs : Store} {t : Table} (h : Abs fs t) (g : Gid) (d : Doc)
    (ts : Nat) : Abs (GuildDB.save fs g d) (upsert t g d ts) := by
  intro g'
  by_cases hg : g' = g
  · subst hg
    simp [GuildDB.save, updateStore, selectByKey_upsert_self]
  · simp only [GuildDB.save, updateStore, hg, if_false]
    rw [selectByKey_upsert_other t d ts hg]
    exact h g'

/-- Deleting a guild keeps the two backends related. -/
theorem abs_delete {fs : Store} {t : Table} (h : Abs fs t) (g : Gid) :
    Abs (GuildDB.delete_guild fs g) (deleteByKey t g) := by
  intro g'
  have hgg := h g
  by_cases hg : g' = g
  · subst hg
    rw [selectByKey_deleteByKey_self]
    cases hsel : selectByKey t g' <;> rw [hsel] at hgg <;>
      simp [GuildDB.delete_guild, hgg, updateStore]
  · rw [selectByKey_deleteByKey_other t hg]
    cases hsel : selectByKey t g <;> rw [hsel] at hgg <;>
      simp [GuildDB.delete_guild, hgg, updateStore, hg, h g']

/-!
## Claim theorems
-/

/-- Claim C2, code evaluated at the failing input: `load(42)` on the
empty store returns the six-key default document of `_default_guild`;
the top-level key `reaction_roles`, which the claim (and the
reaction-role command handlers, `src/cogs/groups/auto.py` line 157)
requires, is absent from it. -/
theorem load_fresh_guild_lacks_reaction_roles :
    GuildDB.load (fun _ => FileRec.absent) 42 = Except.ok _default_guild
    ∧ containsKey _default_guild "reaction_roles" = false
    ∧ List.map Prod.fst _default_guild
        = ["warnings", "welcome", "auto_role", "muted_role", "image_muted",
           "logs"] :=
  ⟨rfl, rfl, rfl⟩

/-- Claim C3, counterexample: on a store whose record for guild 7 exists
but cannot be read, `load 7` raises the read error to the caller instead
of degrading to an all-default document. -/
theorem load_raises_on_unreadable_record :
    GuildDB.load (fun _ => FileRec.bad) 7 = Except.error PyErr.jsonError := rfl

/-- Claim C3 as amended: `load` never fails on a missing record — it
returns the default document — but a record that cannot be read makes
`load` raise, and a write on an unwritable medium makes `save` raise;
no backend failure is absorbed. -/
theorem load_error_propagation (fs : Store) (g : Gid) (d : Doc) :
    (fs g = FileRec.absent → GuildDB.load fs g = Except.ok _default_guild)
    ∧ (fs g = FileRec.bad → GuildDB.load fs g = Except.error PyErr.jsonError)
    ∧ GuildDB.saveOnDisk false fs g d = Except.error PyErr.osError := by
  have hbf : backfill ([] : Doc) = _default_guild := rfl
  refine ⟨fun h => ?_, fun h => ?_, rfl⟩
  · simp [GuildDB.load, h, hbf]
  · simp [GuildDB.load, h]

/-- Claim C3 witness: the amended behaviour at concrete stores. -/
theorem load_error_propagation_witness :
    GuildDB.load (fun _ => FileRec.absent) 5 = Except.ok _default_guild
    ∧ GuildDB.load (fun _ => FileRec.bad) 5 = Except.error PyErr.jsonError
    ∧ GuildDB.saveOnDisk false (fun _ => FileRec.absent) 5 []
        = Except.error PyErr.osError :=
  ⟨(load_error_propagation (fun _ => FileRec.absent) 5 []).1 rfl,
   (load_error_propagation (fun _ => FileRec.bad) 5 []).2.1 rfl,
   (load_error_propagation (fun _ => FileRec.absent) 5 []).2.2⟩

/-- Claim C8: when `load` succeeds, `get` returns the walk over the
loaded document — in particular it returns the provided default, and
does not raise, whenever the walk fails (a segment absent, or an
intermediate value not a mapping). -/
theorem get_returns_default_on_failed_walk (fs : Store) (g : Gid)
    (ks : List String) (dflt : J) (d : Doc)
    (h : GuildDB.load fs g = Except.ok d) :
    GuildDB.get fs g ks dflt = Except.ok (GuildDB.getPath (J.obj d) ks dflt)
    ∧ (resolves (J.obj d) ks = false →
        GuildDB.get fs g ks dflt = Except.ok dflt) := by
  constructor
  · simp [GuildDB.get, h]
  · intro hres
    simp [GuildDB.get, h, getPath_default_of_not_resolves ks _ hres]

/-- Claim C8 witness: `get 42 ["warnings", "100"]` with default `[]` on
a fresh guild returns `[]`. -/
theorem get_returns_default_on_failed_walk_witness :
    GuildDB.get (fun _ => FileRec.absent) 42 ["warnings", "100"] (J.arr [])
      = Except.ok (J.arr []) :=
  (get_returns_default_on_failed_walk (fun _ => FileRec.absent) 42
    ["warnings", "100"] (J.arr []) _default_guild rfl).2 rfl

/-- Claim C9: `delete_guild` is idempotent, a delete of a guild with no
record is a no-op (no error), and a `load` after any delete returns the
canonical default document. -/
theorem delete_guild_idempotent (fs : Store) (g : Gid) :
    GuildDB.delete_guild (GuildDB.delete_guild fs g) g
      = GuildDB.delete_guild fs g
    ∧ (fs g = FileRec.absent → GuildDB.delete_guild fs g = fs)
    ∧ GuildDB.load (GuildDB.delete_guild fs g) g = Except.ok _default_guild := by
  refine ⟨?_, fun h => ?_, ?_⟩
  · cases hfs : fs g with
    | absent => simp [GuildDB.delete_guild, hfs]
    | bad => simp [GuildDB.delete_guild, hfs, updateStore]
    | ok d => simp [GuildDB.delete_guild, hfs, updateStore]
  · simp [GuildDB.delete_guild, h]
  · have hbf : backfill ([] : Doc) = _default_guild := rfl
    cases hfs : fs g with
    | absent => simp [GuildDB.delete_guild, hfs, GuildDB.load, hbf]
    | bad => simp [GuildDB.delete_guild, hfs, GuildDB.load, updateStore, hbf]
    | ok d => simp [GuildDB.delete_guild, hfs, GuildDB.load, updateStore, hbf]

/-- Claim C9 witness: deleting guild 2 on the empty store. -/
theorem delete_guild_idempotent_witness :
    GuildDB.delete_guild (GuildDB.delete_guild (fun _ => FileRec.absent) 2) 2
      = GuildDB.delete_guild (fun _ => FileRec.absent) 2
    ∧ GuildDB.delete_guild (fun _ => FileRec.absent) 2
        = (fun _ => FileRec.absent)
    ∧ GuildDB.load (GuildDB.delete_guild (fun _ => FileRec.absent) 2) 2
        = Except.ok _default_guild :=
  ⟨(delete_guild_idempotent (fun _ => FileRec.absent) 2).1,
   (delete_guild_idempotent (fun _ => FileRec.absent) 2).2.1 rfl,
   (delete_guild_idempotent (fun _ => FileRec.absent) 2).2.2⟩

/-- Claim C10: `get` with zero key-path segments returns the entire
loaded, backfilled document, never the default. -/
theorem get_empty_path_returns_document (fs : Store) (g : Gid) (dflt : J)
    (d : Doc) (h : GuildDB.load fs g = Except.ok d) :
    GuildDB.get fs g [] dflt = Except.ok (J.obj d) := by
  simp [GuildDB.get, h, GuildDB.getPath]

/-- Claim C10 witness: `get` with no segments on a fresh guild returns
the whole default document, not the default value. -/
theorem get_empty_path_returns_document_witness :
    GuildDB.get (fun _ => FileRec.absent) 42 [] J.null
      = Except.ok (J.obj _default_guild) :=
  get_empty_path_returns_document (fun _ => FileRec.absent) 42 J.null
    _default_guild rfl

/-- Claim C5: `save` then `load` returns the saved document with exactly
the missing default top-level keys appended with their default values;
`load` after `save` is the identity on documents that already contain
all default keys; and saving a loaded document and loading again returns
the same document (idempotence). -/
theorem save_load_roundtrip (fs : Store) (g : Gid) (d : Doc) :
    GuildDB.load (GuildDB.save fs g d) g
      = Except.ok (d ++ _default_guild.filter (fun kv => !containsKey d kv.1))
    ∧ (hasAllDefaults d = true →
        GuildDB.load (GuildDB.save fs g d) g = Except.ok d)
    ∧ (∀ d', GuildDB.load fs g = Except.ok d' →
        GuildDB.load (GuildDB.save fs g d') g = Except.ok d') := by
  refine ⟨?_, fun h => ?_, fun d' h => ?_⟩
  · rw [load_save, backfill_eq]
  · rw [load_save, backfill_of_hasAllDefaults h]
  · rw [load_save, backfill_of_hasAllDefaults (load_hasAllDefaults h)]

/-- Claim C5 witness: the round trip at concrete stores and documents. -/
theorem save_load_roundtrip_witness :
    GuildDB.load
        (GuildDB.save (fun _ => FileRec.absent) 3 [("muted_role", J.num 9)]) 3
      = Except.ok ([("muted_role", J.num 9)]
          ++ _default_guild.filter
              (fun kv => !containsKey [("muted_role", J.num 9)] kv.1))
    ∧ GuildDB.load
        (GuildDB.save (fun _ => FileRec.absent) 3 _default_guild) 3
        = Except.ok _default_guild
    ∧ GuildDB.load
        (GuildDB.save (fun _ => FileRec.ok []) 3 _default_guild) 3
        = Except.ok _default_guild :=
  ⟨(save_load_roundtrip (fun _ => FileRec.absent) 3
      [("muted_role", J.num 9)]).1,
   (save_load_roundtrip (fun _ => FileRec.absent) 3 _default_guild).2.1 rfl,
   (save_load_roundtrip (fun _ => FileRec.ok []) 3 []).2.2 _default_guild rfl⟩

/-- Claim C6: backfill at load time is a shallow one-level merge — the
loaded document is the stored one with exactly the missing default
top-level keys appended, and every top-level key already present keeps
its value (with all nested content) unchanged. -/
theorem load_backfill_frame (fs : Store) (g : Gid) (s : Doc)
    (h : fs g = FileRec.ok s) :
    GuildDB.load fs g
      = Except.ok (s ++ _default_guild.filter (fun kv => !containsKey s kv.1))
    ∧ (∀ k, containsKey s k = true →
        lookupKey (backfill s) k = lookupKey s k) := by
  constructor
  · simp only [GuildDB.load, h]
    rw [backfill_eq]
  · intro k hk
    rw [backfill_eq]
    exact lookupKey_append_left _ hk

/-- Claim C6 witness: a stored document with caller-supplied content
under `warnings` keeps that content unchanged through `load`. -/
theorem load_backfill_frame_witness :
    GuildDB.load (fun g' => if g' = 9 then FileRec.ok attackerDoc
        else FileRec.absent) 9
      = Except.ok (attackerDoc
          ++ _default_guild.filter (fun kv => !containsKey attackerDoc kv.1))
    ∧ lookupKey (backfill attackerDoc) "warnings"
        = lookupKey attackerDoc "warnings" :=
  ⟨(load_backfill_frame (fun g' => if g' = 9 then FileRec.ok attackerDoc
      else FileRec.absent) 9 attackerDoc rfl).1,
   (load_backfill_frame (fun g' => if g' = 9 then FileRec.ok attackerDoc
      else FileRec.absent) 9 attackerDoc rfl).2 "warnings" rfl⟩

/-- Claim C4, counterexample: `set` can fail.  On a fresh guild,
`set(42, ["muted_role", "x"], 1)` raises `TypeError` (the existing value
at the intermediate segment `muted_role` is `None`, not a mapping), and
`set(42, [], 1)` raises `IndexError` (`keys[-1]` on an empty path). -/
theorem set_raises_on_bad_key_path :
    GuildDB.set (fun _ => FileRec.absent) 42 ["muted_role", "x"] (J.num 1)
      = Except.error PyErr.typeError
    ∧ GuildDB.set (fun _ => FileRec.absent) 42 [] (J.num 1)
      = Except.error PyErr.indexError :=
  ⟨rfl, rfl⟩

/-- Claim C4 as amended: whenever the nested mutation along the key path
succeeds — which it does for every nonempty path whose pre-existing
intermediate values are mappings — `set` saves the mutated document and
a subsequent `get` along the same path returns the written value. -/
theorem set_get_roundtrip (fs : Store) (g : Gid) (ks : List String)
    (v dflt : J) (d d' : Doc) (hload : GuildDB.load fs g = Except.ok d)
    (hset : GuildDB.setDoc d ks v = Except.ok d') :
    GuildDB.set fs g ks v = Except.ok (GuildDB.save fs g d')
    ∧ GuildDB.get (GuildDB.save fs g d') g ks dflt = Except.ok v := by
  constructor
  · simp [GuildDB.set, hload, hset]
  · have hall : hasAllDefaults d' = true :=
      hasAllDefaults_setDoc hset (load_hasAllDefaults hload)
    simp only [GuildDB.get, load_save, backfill_of_hasAllDefaults hall]
    rw [setDoc_getPath ks d d' hset]

/-- Claim C4 witness: `set(42, ["auto_role", "member"], 555)` then
`get(42, "auto_role", "member")` returns `555`. -/
theorem set_get_roundtrip_witness :
    GuildDB.set (fun _ => FileRec.absent) 42 ["auto_role", "member"]
        (J.num 555)
      = Except.ok (GuildDB.save (fun _ => FileRec.absent) 42 exampleAfterSet)
    ∧ GuildDB.get (GuildDB.save (fun _ => FileRec.absent) 42 exampleAfterSet)
        42 ["auto_role", "member"] J.null = Except.ok (J.num 555) :=
  set_get_roundtrip (fun _ => FileRec.absent) 42 ["auto_role", "member"]
    (J.num 555) J.null _default_guild exampleAfterSet rfl rfl

/-- Claim C1, code evaluated at the failing input: in the event trace of
`set` for guild 42, the per-guild lock is free after the third event —
between the internal `load` (which released it) and the internal `save`
(which re-acquires it) — so the lock is not held for the full duration
of `set`'s load-then-save sequence. -/
theorem set_lock_not_held_throughout :
    heldAfter ((setEvents 42).take 3) 42 = false
    ∧ ¬heldThroughout (setEvents 42) 42 :=
  ⟨rfl, fun h => absurd (h 3 (by decide) (by decide)) (by decide)⟩

/-- Claim C7: the file-per-guild backend and the remote-table backend
implement the same contract behind the same surface — when the file
store and the table hold the same records, `load` and `get` return the
same results, `save` and `delete_guild` keep the two backends holding
the same records, and `set` fails identically or succeeds on both while
keeping them related. -/
theorem backends_equivalent (fs : Store) (t : Table) (habs : Abs fs t)
    (g : Gid) (d : Doc) (ks : List String) (v dflt : J) (ts : Nat) :
    GuildDB.load fs g = Except.ok (RemoteDB.load t g)
    ∧ Abs (GuildDB.save fs g d) (RemoteDB.save t g d ts)
    ∧ Abs (GuildDB.delete_guild fs g) (RemoteDB.delete_guild t g)
    ∧ GuildDB.get fs g ks dflt = Except.ok (RemoteDB.get t g ks dflt)
    ∧ (∀ e, GuildDB.set fs g ks v = Except.error e
        ↔ RemoteDB.set t g ks v ts = Except.error e)
    ∧ (∀ fs' t', GuildDB.set fs g ks v = Except.ok fs'
        → RemoteDB.set t g ks v ts = Except.ok t' → Abs fs' t') := by
  refine ⟨load_of_related habs g, abs_save habs g d ts, abs_delete habs g,
    ?_, ?_, ?_⟩
  · simp [GuildDB.get, load_of_related habs g, RemoteDB.get]
  · intro e
    simp only [GuildDB.set, load_of_related habs g, RemoteDB.set]
    cases GuildDB.setDoc (RemoteDB.load t g) ks v <;> simp
  · intro fs' t' hf hr
    simp only [GuildDB.set, load_of_related habs g] at hf
    simp only [RemoteDB.set] at hr
    cases hsd : GuildDB.setDoc (RemoteDB.load t g) ks v with
    | error e => rw [hsd] at hf; exact absurd hf (by simp)
    | ok d' =>
      rw [hsd] at hf hr
      simp only [Except.ok.injEq] at hf hr
      rw [← hf, ← hr]
      exact abs_save habs g d' ts

/-- Claim C7 witness: the equivalence at the empty file store and the
empty table. -/
theorem backends_equivalent_witness :
    GuildDB.load (fun _ => FileRec.absent) 1 = Except.ok (RemoteDB.load [] 1)
    ∧ GuildDB.get (fun _ => FileRec.absent) 1 [] J.null
        = Except.ok (RemoteDB.get [] 1 [] J.null) :=
  ⟨(backends_equivalent (fun _ => FileRec.absent) [] (fun _ => rfl)
      1 [] [] J.null J.null 0).1,
   (backends_equivalent (fun _ => FileRec.absent) [] (fun _ => rfl)
      1 [] [] J.null J.null 0).2.2.2.1⟩

end GuildStore
